import Mathlib

/-
Shallow embedding of cf_footprint.py: a script that shells out to the
Cloud Foundry CLI, parses its textual output, and applies a linear
energy model.  External command outputs are modelled as explicit string
parameters; Python exceptions are modelled with an error type and
Except; Python numbers are modelled with Nat/Int/Rat (rational numbers
stand in for Python's real-valued arithmetic).
-/

namespace CfFootprint

/-- Python exception kinds that the embedded code can raise.  The source
raises RuntimeError explicitly (with a message); IndexError, TypeError and
ValueError arise from list indexing, the membership test on a non-container,
and int() parsing respectively. -/
inductive PyError where
  | runtimeError (msg : String)
  | indexError
  | typeError
  | valueError

/-- Whitespace characters matched by Python's regex class backslash-s and
stripped by str.strip, restricted to ASCII (all inputs here are ASCII). -/
def isPySpace (c : Char) : Bool :=
  c = ' ' || c = '\t' || c = '\n' || c = '\r' || c = '\x0b' || c = '\x0c'

/-- Boolean list-prefix test (needle is a prefix of the haystack). -/
def lpre : List Char → List Char → Bool
  | [], _ => true
  | _ :: _, [] => false
  | c :: cs, d :: ds => if c = d then lpre cs ds else false

/-- Python's substring containment test (needle in haystack) on char lists. -/
def containsSub (needle : List Char) : List Char → Bool
  | [] => needle.isEmpty
  | c :: rest => lpre needle (c :: rest) || containsSub needle rest

/-- Everything after the first occurrence of needle, as in Python's
text.split(needle, 1)[1]; none when needle does not occur. -/
def afterFirst (needle : List Char) : List Char → Option (List Char)
  | [] => if needle.isEmpty then some [] else none
  | c :: rest =>
    if lpre needle (c :: rest) then some ((c :: rest).drop needle.length)
    else afterFirst needle rest

/-- Python's substring containment test (needle in haystack) on strings. -/
def strHasSub (needle hay : String) : Bool :=
  containsSub needle.data hay.data

/-- Python list membership test for a string element (x in list). -/
def lmem (x : String) : List String → Bool
  | [] => false
  | y :: ys => if y = x then true else lmem x ys

/-- Worker for str.splitlines: accumulates the current line (reversed) and
splits on a newline, a carriage return, or a CRLF pair; a trailing line
terminator produces no extra empty line, matching Python. -/
def splitlinesAux : List Char → List Char → List String
  | [], [] => []
  | [], acc => [String.mk acc.reverse]
  | '\n' :: rest, acc => String.mk acc.reverse :: splitlinesAux rest []
  | '\r' :: '\n' :: rest, acc => String.mk acc.reverse :: splitlinesAux rest []
  | '\r' :: rest, acc => String.mk acc.reverse :: splitlinesAux rest []
  | c :: rest, acc => splitlinesAux rest (c :: acc)

/-- Python's str.splitlines on a char list. -/
def pySplitlinesL (l : List Char) : List String :=
  splitlinesAux l []

/-- Python's str.splitlines on a string. -/
def pySplitlines (s : String) : List String :=
  pySplitlinesL s.data

/-- Python's str.startswith. -/
def pyStartsWith (s p : String) : Bool :=
  lpre p.data s.data

/-- Strip a literal prefix, returning the remainder on success. -/
def stripLit : List Char → List Char → Option (List Char)
  | [], l => some l
  | _ :: _, [] => none
  | c :: cs, d :: ds => if c = d then stripLit cs ds else none

/-- Numeric value of an ASCII digit character. -/
def digitVal (c : Char) : Nat :=
  c.toNat - 48

/-- Regex tail for one digit: matches digit slash digit and captures the
single leading digit, mirroring the backtracked alternative of the group
pattern. -/
def matchOne : List Char → Option Nat
  | a :: '/' :: d :: _ => if a.isDigit && d.isDigit then some (digitVal a) else none
  | _ => none

/-- Regex tail for the capture group: one or two digits, a slash, then one
or two digits.  Greedy matching tries two leading digits first and falls
back to one, exactly as Python's backtracking does for this pattern. -/
def matchFrac (l : List Char) : Option Nat :=
  match l with
  | a :: b :: '/' :: d :: _ =>
    if a.isDigit && b.isDigit && d.isDigit then some (10 * digitVal a + digitVal b)
    else matchOne l
  | _ => matchOne l

/-- Match of the regex suffix after the mandatory leading whitespace: the
literal word started, then any run of whitespace, then the literal web colon,
then the instance fraction.  The greedy whitespace run is equivalent to
dropWhile here because the following literal starts with a non-space. -/
def matchAfterWs (l : List Char) : Option Nat :=
  match stripLit ("started".data) l with
  | none => none
  | some rest =>
    match stripLit ("web:".data) (rest.dropWhile isPySpace) with
    | none => none
    | some rest2 => matchFrac rest2

/-- Model of re.search for the source pattern: scan left to right for the
first position where a whitespace character is followed by the started/web
pattern, returning the first captured number (running instances). -/
def searchStarted : List Char → Option Nat
  | [] => none
  | c :: rest =>
    if isPySpace c then
      match matchAfterWs rest with
      | some n => some n
      | none => searchStarted rest
    else searchStarted rest

/-- Instances contributed by one line of cf apps output: the captured
running count when the pattern matches, otherwise zero. -/
def lineInstances (line : String) : Nat :=
  (searchStarted line.data).getD 0

/-- Header token that cf spaces output is split on: the characters of the
literal "name" followed by a newline. -/
def nameNl : List Char := ['n', 'a', 'm', 'e', '\n']

/-- Embedding of get_cf_spaces, parameterised by the captured output of the
external cf spaces command: if the header token occurs, everything after its
first occurrence is split into lines (one space name per line); otherwise a
RuntimeError is raised. -/
def get_cf_spaces (spaces_output : String) : Except PyError (List String) :=
  if containsSub nameNl spaces_output.data then
    .ok (pySplitlinesL ((afterFirst nameNl spaces_output.data).getD []))
  else
    .error (.runtimeError "Error retrieving Cloud Foundry spaces:")

/-- Embedding of switch_to_cf_space, parameterised by the captured output of
the cf target command. -/
def switch_to_cf_space_out (switch_output : String) : Except PyError Unit :=
  if strHasSub "API endpoint" switch_output then .ok ()
  else .error (.runtimeError "Error switching to space:")

/-- Embedding of get_active_instances, parameterised by the captured output
of cf apps.  The source splits the output into lines, tests list membership
of the no-apps marker (an exact line, since the membership test runs on the
line list), indexes line two (raising IndexError when fewer than three lines
exist), checks the header, and otherwise sums the regex captures over all
lines. -/
def get_active_instances (apps_text : String) : Except PyError Nat :=
  let apps_output := pySplitlines apps_text
  if lmem "No apps found" apps_output then .ok 0
  else
    match apps_output[2]? with
    | none => .error .indexError
    | some third =>
      if pyStartsWith third "name" then
        .ok (apps_output.foldl (fun instances line => instances + lineInstances line) 0)
      else .error (.runtimeError "Error retrieving applications data")

/-- Embedding of get_services, parameterised by the captured output of cf
services: zero when the no-services marker is an exact line, otherwise the
count of non-empty lines minus two (the assumed header lines), which can go
negative. -/
def get_services (services_text : String) : Int :=
  let services_output := pySplitlines services_text
  if lmem "No services found" services_output then 0
  else
    (services_output.foldl (fun services svs => if svs ≠ "" then services + 1 else services) (0 : Int)) - 2

/-- Model of a Python runtime value as far as the login path needs: either a
string or a bound-method object (the unapplied read attribute). -/
inductive PyVal where
  | str (s : String)
  | boundMethod

/-- Python's membership test applied to a runtime value: substring search on
a string, TypeError on a bound method (not a container). -/
def pyIn (needle : String) : PyVal → Except PyError Bool
  | .str s => .ok (strHasSub needle s)
  | .boundMethod => .error .typeError

/-- Embedding of login_cf.  The source writes os.popen(login).read without
the call parentheses, so the bound value is the read method itself, never
the response text; the parameter is the read function whose application
would have produced that text.  The membership test then runs on the method
object. -/
def login_cf (_login_read : Unit → String) : Except PyError Unit :=
  let login_output : PyVal := .boundMethod
  match pyIn "API endpoint:" login_output with
  | .error e => .error e
  | .ok true => .ok ()
  | .ok false => .error (.runtimeError "Error logging into Cloud Foundry:")

/-- Average power draw of one Cloud Foundry server in Watt. -/
def WATT_PER_SERVER : ℚ := 400

/-- Assumed number of containers supported by one server. -/
def INSTANCES_PER_SERVER : ℚ := 65

/-- Hours in a year, 365.25 times 24. -/
def HOURS_PER_YEAR : ℚ := 365.25 * 24

/-- Label used for the aggregate report line. -/
def TOTAL : String := "TOTAL"

/-- Embedding of calculate_footprint: current energy consumption in Watt.
Python's real-valued division is modelled exactly over the rationals. -/
def calculate_footprint (active_instances : ℚ) : ℚ :=
  (active_instances / INSTANCES_PER_SERVER) * WATT_PER_SERVER

/-- Embedding of calculate_footprint_per_year: energy consumption in kWh
per year. -/
def calculate_footprint_per_year (active_instances : ℚ) : ℚ :=
  calculate_footprint active_instances * HOURS_PER_YEAR / 1000

/-- Embedding of calculate_carbon_footprint_per_year: carbon footprint in
kg CO2e per year, from a gram-based carbon intensity. -/
def calculate_carbon_footprint_per_year (active_instances : ℚ) (carbon_intensity : ℤ) : ℚ :=
  calculate_footprint_per_year active_instances * (carbon_intensity : ℚ) / 1000

/-- Floor of a rational as an integer, via floor division of the normalised
numerator by the denominator. -/
def ratFloor (q : ℚ) : ℤ :=
  q.num.fdiv q.den

/-- Python's round to an integer: nearest integer, with exact halves going
to the even neighbour (banker's rounding). -/
def pyRound (q : ℚ) : ℤ :=
  let f := ratFloor q
  let r := q - (f : ℚ)
  if r < 1 / 2 then f
  else if 1 / 2 < r then f + 1
  else if f % 2 = 0 then f else f + 1

/-- Parsed value of Python's int() applied to a decimal digit string: strips
surrounding whitespace, accepts one optional sign, then requires a nonempty
run of ASCII digits; none models the ValueError raised otherwise. -/
def digitsVal : List Char → Option Nat
  | [] => none
  | ds => if ds.all Char.isDigit then
      some (ds.foldl (fun a c => 10 * a + digitVal c) 0)
    else none

/-- Python's int() on a string, as an optional integer. -/
def pyInt (s : String) : Option Int :=
  let t := s.data.dropWhile isPySpace
  let t := (t.reverse.dropWhile isPySpace).reverse
  match t with
  | '-' :: ds => (digitsVal ds).map (fun n => -(n : Int))
  | '+' :: ds => (digitsVal ds).map (fun n => (n : Int))
  | ds => (digitsVal ds).map (fun n => (n : Int))

/-- Command-line arguments produced by process_arguments: year and verbose
are store-true flags, carbon and space are optional string values (argparse
yields None when a flag is absent, a raw string when present). -/
structure Args where
  year : Bool
  carbon : Option String
  space : Option String
  verbose : Bool

/-- Python truthiness of an optional string: None and the empty string are
falsy, every other string is truthy. -/
def pyTruthy : Option String → Bool
  | none => false
  | some s => s ≠ ""

/-- Embedding of print_footprint, returning the printed line (or the
ValueError raised by int() on a non-numeric carbon value): label is TOTAL
with a colon for the aggregate and Space name with a colon otherwise; the
carbon branch is taken when the carbon argument is truthy, else the year
branch when the year flag is set, else the Watt branch. -/
def print_footprint (args : Args) (name : String) (active_instances : Nat) : Except PyError String :=
  let _name := if name = TOTAL then TOTAL ++ ":" else "Space " ++ name ++ ":"
  if pyTruthy args.carbon then
    match pyInt (args.carbon.getD "") with
    | none => .error .valueError
    | some c =>
      .ok (_name ++ " " ++ toString (pyRound (calculate_carbon_footprint_per_year (active_instances : ℚ) c)) ++ " kg CO2e per year")
  else if args.year then
    .ok (_name ++ " " ++ toString (pyRound (calculate_footprint_per_year (active_instances : ℚ))) ++ " kWh per year")
  else
    .ok (_name ++ " " ++ toString (pyRound (calculate_footprint (active_instances : ℚ))) ++ " Watt")

/-- Outputs of the external cf CLI, as observed by one run: the captured
text of cf spaces, and of cf target, cf apps and cf services as a function
of the space currently targeted.  Targeting is sequential, so the output of
cf apps is determined by the space name passed to the preceding target
switch. -/
structure Env where
  spaces_output : String
  target_output : String → String
  apps_output : String → String
  services_output : String → String

/-- Switch to a space within an environment. -/
def switch_to_cf_space (env : Env) (space : String) : Except PyError Unit :=
  switch_to_cf_space_out (env.target_output space)

/-- Loop body of main's all-spaces mode: for each space in order, switch to
it, measure its active instances, and accumulate the running total; returns
the list of per-space report arguments (name and instance count, in call
order) together with the final total. -/
def processSpaces (env : Env) (total_instances : Nat) : List String → Except PyError (List (String × Nat) × Nat)
  | [] => .ok ([], total_instances)
  | space :: rest =>
    match switch_to_cf_space env space with
    | .error e => .error e
    | .ok _ =>
      match get_active_instances (env.apps_output space) with
      | .error e => .error e
      | .ok active_instances =>
        match processSpaces env (total_instances + active_instances) rest with
        | .error e => .error e
        | .ok (reports, total) => .ok ((space, active_instances) :: reports, total)

/-- Embedding of main, returning the trace of arguments passed to
print_footprint (label and instance count, in call order): single-space mode
switches, measures and reports once, additionally querying the service
count; all-spaces mode lists the spaces, processes each in order, and ends
with the aggregate TOTAL report carrying the accumulated total. -/
def main (args : Args) (env : Env) : Except PyError (List (String × Nat)) :=
  match args.space with
  | some space =>
    match switch_to_cf_space env space with
    | .error e => .error e
    | .ok _ =>
      match get_active_instances (env.apps_output space) with
      | .error e => .error e
      | .ok n =>
        let _services := get_services (env.services_output space)
        .ok [(space, n)]
  | none =>
    match get_cf_spaces env.spaces_output with
    | .error e => .error e
    | .ok spaces =>
      match processSpaces env 0 spaces with
      | .error e => .error e
      | .ok (reports, total_instances) => .ok (reports ++ [(TOTAL, total_instances)])

/-! Helper lemmas. -/

lemma nameNl_eq_data : nameNl = "name\n".data := rfl

lemma strData_append (s t : String) : (s ++ t).data = s.data ++ t.data := rfl

lemma lpre_append_self : ∀ (s q : List Char), lpre s (s ++ q) = true := by
  intro s
  induction s with
  | nil => intro q; rfl
  | cons c cs ih => intro q; simp [lpre, ih]

lemma lpre_append_cases : ∀ (x a y : List Char),
    lpre a (x ++ y) = true → lpre a x = true ∨ ∃ t, a = x ++ t ∧ lpre t y = true := by
  intro x
  induction x with
  | nil => intro a y h; exact Or.inr ⟨a, rfl, h⟩
  | cons c x' ih =>
    intro a y h
    match a with
    | [] => exact Or.inl rfl
    | b :: a' =>
      rw [List.cons_append] at h
      simp only [lpre] at h
      by_cases hbc : b = c
      · rw [if_pos hbc] at h
        rcases ih a' y h with h1 | ⟨t, ht, hlt⟩
        · left; simp [lpre, hbc, h1]
        · right; exact ⟨t, by rw [ht, hbc, List.cons_append], hlt⟩
      · rw [if_neg hbc] at h
        exact absurd h (by decide)

lemma containsSub_eq_isSome : ∀ (needle l : List Char),
    containsSub needle l = (afterFirst needle l).isSome := by
  intro needle l
  induction l with
  | nil => cases hne : needle.isEmpty <;> simp [containsSub, afterFirst, hne]
  | cons c rest ih =>
    simp only [containsSub, afterFirst]
    cases h : lpre needle (c :: rest) <;> simp [h, ih]

lemma nameNl_drop_not_self_pre : ∀ k : Nat, k < 5 → 1 ≤ k → lpre (nameNl.drop k) nameNl = false := by
  decide

lemma afterFirst_nameNl_append : ∀ (p q : List Char), containsSub nameNl p = false →
    afterFirst nameNl (p ++ (nameNl ++ q)) = some q := by
  intro p
  induction p with
  | nil =>
    intro q _
    show afterFirst nameNl ('n' :: 'a' :: 'm' :: 'e' :: '\n' :: q) = some q
    simp [afterFirst, lpre, nameNl]
  | cons c p' ih =>
    intro q h
    simp only [containsSub, Bool.or_eq_false_iff] at h
    obtain ⟨h1, h2⟩ := h
    show afterFirst nameNl (c :: (p' ++ (nameNl ++ q))) = some q
    have hcond : lpre nameNl (c :: (p' ++ (nameNl ++ q))) = false := by
      by_contra hc
      rw [Bool.not_eq_false] at hc
      have hc' : lpre nameNl ((c :: p') ++ (nameNl ++ q)) = true := by
        rw [List.cons_append]; exact hc
      rcases lpre_append_cases (c :: p') nameNl (nameNl ++ q) hc' with hL | ⟨t, ht, hlt⟩
      · rw [h1] at hL; exact absurd hL (by decide)
      · cases t with
        | nil =>
          rw [List.append_nil] at ht
          have hself : lpre nameNl (c :: p') = true := by
            rw [← ht]
            have := lpre_append_self nameNl []
            rwa [List.append_nil] at this
          rw [h1] at hself; exact absurd hself (by decide)
        | cons d t' =>
          rcases lpre_append_cases nameNl (d :: t') q hlt with hL2 | ⟨u, hu, _⟩
          · have hk : (d :: t') = nameNl.drop (c :: p').length := by
              rw [ht, List.drop_left]
            have hk1 : 1 ≤ (c :: p').length := by simp
            have hk4 : (c :: p').length < 5 := by
              have hlen : nameNl.length = (c :: p').length + (d :: t').length := by
                rw [ht, List.length_append]
              have h5 : nameNl.length = 5 := rfl
              have hd1 : 1 ≤ (d :: t').length := by simp
              omega
            have hfalse := nameNl_drop_not_self_pre (c :: p').length hk4 hk1
            rw [← hk] at hfalse
            rw [hL2] at hfalse
            exact absurd hfalse (by decide)
          · have l1 : (d :: t').length = nameNl.length + u.length := by
              rw [hu, List.length_append]
            have l2 : nameNl.length = (c :: p').length + (d :: t').length := by
              rw [ht, List.length_append]
            have h5 : nameNl.length = 5 := rfl
            simp only [List.length_cons] at l1 l2
            omega
    simp only [afterFirst]
    rw [hcond]
    simp only [Bool.false_eq_true, if_false]
    exact ih q h2

lemma containsSub_nameNl_append : ∀ (p q : List Char), containsSub nameNl p = false →
    containsSub nameNl (p ++ (nameNl ++ q)) = true := by
  intro p q h
  rw [containsSub_eq_isSome, afterFirst_nameNl_append p q h]
  rfl

lemma foldl_add_lineInstances : ∀ (xs : List String) (a : Nat),
    xs.foldl (fun instances line => instances + lineInstances line) a
      = a + (xs.map lineInstances).sum := by
  intro xs
  induction xs with
  | nil => intro a; simp
  | cons x xs ih =>
    intro a
    simp only [List.foldl_cons, List.map_cons, List.sum_cons, ih]
    omega

lemma foldl_count_nonempty : ∀ (xs : List String) (a : Int),
    xs.foldl (fun services svs => if svs ≠ "" then services + 1 else services) a
      = a + (xs.countP (fun s => decide (s ≠ ""))) := by
  intro xs
  induction xs with
  | nil => intro a; simp
  | cons x xs ih =>
    intro a
    simp only [List.foldl_cons, List.countP_cons, ih]
    by_cases hx : x = ""
    · simp [hx]
    · simp [hx]
      ring

lemma ratFloor_zero : ratFloor 0 = 0 := by
  simp [ratFloor]

lemma pyRound_zero : pyRound 0 = 0 := by
  unfold pyRound
  rw [ratFloor_zero]
  norm_num

lemma processSpaces_spec : ∀ (env : Env) (spaces : List String) (t : Nat)
    (tr : List (String × Nat)) (tot : Nat),
    processSpaces env t spaces = .ok (tr, tot) →
    tot = t + (tr.map Prod.snd).sum ∧ tr.map Prod.fst = spaces ∧
      ∀ p ∈ tr, get_active_instances (env.apps_output p.1) = .ok p.2 := by
  intro env spaces
  induction spaces with
  | nil =>
    intro t tr tot h
    simp only [processSpaces, Except.ok.injEq, Prod.mk.injEq] at h
    obtain ⟨h1, h2⟩ := h
    subst h1; subst h2
    simp
  | cons space rest ih =>
    intro t tr tot h
    cases hsw : switch_to_cf_space env space with
    | error e => simp [processSpaces, hsw] at h
    | ok u =>
      cases hga : get_active_instances (env.apps_output space) with
      | error e => simp [processSpaces, hsw, hga] at h
      | ok n =>
        cases hps : processSpaces env (t + n) rest with
        | error e => simp [processSpaces, hsw, hga, hps] at h
        | ok pr =>
          obtain ⟨tr', tot'⟩ := pr
          simp only [processSpaces, hsw, hga, hps, Except.ok.injEq, Prod.mk.injEq] at h
          obtain ⟨h1, h2⟩ := h
          subst h1; subst h2
          obtain ⟨ihsum, ihfst, ihmem⟩ := ih (t + n) tr' tot' hps
          refine ⟨?_, ?_, ?_⟩
          · simp only [List.map_cons, List.sum_cons]
            omega
          · simp [ihfst]
          · intro p hp
            rcases List.mem_cons.mp hp with hp1 | hp2
            · subst hp1; exact hga
            · exact ihmem p hp2

/-! Claim theorems. -/

/-- C2 counterexample: an input text that contains the substring
"No apps found" only inside a longer line is not short-circuited to 0; the
code tests list membership of the exact line, so this input reaches the
regex scan and returns 3. -/
theorem no_apps_substring_cex :
    strHasSub "No apps found" "No apps found yet\nx\nname\nmyapp   started web:3/5 ok" = true
    ∧ get_active_instances "No apps found yet\nx\nname\nmyapp   started web:3/5 ok" = .ok 3
    ∧ (Except.ok 3 : Except PyError Nat) ≠ .ok 0 := by
  refine ⟨rfl, rfl, ?_⟩
  intro h
  exact absurd (Except.ok.inj h) (by decide)

/-- C2 (amended): for every input text that contains a whole line equal to
"No apps found", get_active_instances returns 0 regardless of any other
content; the marker is tested as an exact line of the split output, not as
a substring. -/
theorem no_apps_line_returns_zero :
    ∀ t : String, lmem "No apps found" (pySplitlines t) = true →
      get_active_instances t = .ok 0 := by
  intro t h
  simp [get_active_instances, h]

/-- Witness for the amended C2 theorem at a concrete two-line input. -/
theorem no_apps_line_returns_zero_witness :
    lmem "No apps found" (pySplitlines "x\nNo apps found") = true
    ∧ get_active_instances "x\nNo apps found" = .ok 0 :=
  ⟨rfl, no_apps_line_returns_zero "x\nNo apps found" rfl⟩

/-- C3 counterexample: the empty input has no marker line and fewer than
three lines, and get_active_instances fails with an IndexError from the
third-line access, not with the FormatError RuntimeError the claim
requires. -/
theorem short_input_index_error_cex :
    pySplitlines "" = []
    ∧ get_active_instances "" = .error PyError.indexError :=
  ⟨rfl, rfl⟩

/-- C3 (amended): for every input text whose split lines do not contain the
exact line "No apps found", the failure mode splits by length: with at most
two lines the third-line access fails with an IndexError, and with a third
line present that does not start with "name" the function fails with the
FormatError RuntimeError. -/
theorem apps_parse_failure_errors :
    ∀ t : String, lmem "No apps found" (pySplitlines t) = false →
      ((pySplitlines t).length ≤ 2 → get_active_instances t = .error PyError.indexError)
      ∧ (∀ third : String, (pySplitlines t)[2]? = some third →
          pyStartsWith third "name" = false →
          get_active_instances t = .error (PyError.runtimeError "Error retrieving applications data")) := by
  intro t h
  constructor
  · intro hlen
    have h2 : (pySplitlines t)[2]? = none := List.getElem?_eq_none hlen
    simp [get_active_instances, h, h2]
  · intro third h2 h3
    simp [get_active_instances, h, h2, h3]

/-- Witness for the amended C3 theorem: a three-line input with a bad
header fails with the RuntimeError. -/
theorem apps_parse_failure_errors_witness :
    lmem "No apps found" (pySplitlines "a\nb\nc") = false
    ∧ (pySplitlines "a\nb\nc")[2]? = some "c"
    ∧ pyStartsWith "c" "name" = false
    ∧ get_active_instances "a\nb\nc" = .error (PyError.runtimeError "Error retrieving applications data") :=
  ⟨rfl, rfl, rfl, (apps_parse_failure_errors "a\nb\nc" rfl).2 "c" rfl rfl⟩

/-- C4: login_cf never reads the response text; it binds the read method
without calling it, so the membership test raises a TypeError on every
invocation and the login can never succeed, whatever the response would
have been. -/
theorem login_cf_always_type_error :
    ∀ f : Unit → String, login_cf f = .error PyError.typeError :=
  fun _ => rfl

/-- C5: on inputs without a marker line whose third line starts with
"name", get_active_instances returns the sum over all lines of the first
captured number of the started/web pattern; on the claim's concrete table
with running counts 2 and 0 it returns 2. -/
theorem count_active_instances_sums_matches :
    (∀ t : String, lmem "No apps found" (pySplitlines t) = false →
      ∀ third : String, (pySplitlines t)[2]? = some third →
        pyStartsWith third "name" = true →
        get_active_instances t = .ok (((pySplitlines t).map lineInstances).sum))
    ∧ get_active_instances "Getting apps in org o / space s as u...\n\nname requested state instances memory disk urls\nmyapp   started web:2/3 ...\notherapp   started web:0/1 ..." = .ok 2 := by
  constructor
  · intro t h third h2 h3
    simp [get_active_instances, h, h2, h3, foldl_add_lineInstances]
  · rfl

/-- Witness for C5 at a concrete well-formed table. -/
theorem count_active_instances_sums_matches_witness :
    lmem "No apps found" (pySplitlines "a\nb\nname x\nc started web:4/9") = false
    ∧ (pySplitlines "a\nb\nname x\nc started web:4/9")[2]? = some "name x"
    ∧ pyStartsWith "name x" "name" = true
    ∧ get_active_instances "a\nb\nname x\nc started web:4/9"
        = .ok (((pySplitlines "a\nb\nname x\nc started web:4/9").map lineInstances).sum) :=
  ⟨rfl, rfl, rfl, count_active_instances_sums_matches.1 "a\nb\nname x\nc started web:4/9" rfl "name x" rfl rfl⟩

/-- C10: on every input text without an exact "No services found" line and
with fewer than two non-empty lines, get_services returns a negative
number; on the empty string it returns minus two. -/
theorem get_services_negative_on_short_input :
    (∀ t : String, lmem "No services found" (pySplitlines t) = false →
      (pySplitlines t).countP (fun s => decide (s ≠ "")) < 2 →
      get_services t < 0)
    ∧ get_services "" = -2 := by
  constructor
  · intro t h1 h2
    simp only [get_services, h1, Bool.false_eq_true, if_false]
    rw [foldl_count_nonempty]
    omega
  · rfl

/-- Witness for C10 at a concrete one-line input. -/
theorem get_services_negative_on_short_input_witness :
    lmem "No services found" (pySplitlines "x") = false
    ∧ (pySplitlines "x").countP (fun s => decide (s ≠ "")) < 2
    ∧ get_services "x" < 0 :=
  ⟨rfl, by decide, get_services_negative_on_short_input.1 "x" rfl (by decide)⟩

/-- C7: get_cf_spaces splits on the first occurrence of the header token
(the literal "name" followed by a newline) and returns the lines after it,
one space name per line; on the claim's concrete input it returns the two
space names; and on every text not containing the token it fails with the
FormatError RuntimeError. -/
theorem get_cf_spaces_spec :
    (∀ pre post : String, containsSub nameNl pre.data = false →
      get_cf_spaces (pre ++ "name\n" ++ post) = .ok (pySplitlines post))
    ∧ (∀ t : String, containsSub nameNl t.data = false →
      get_cf_spaces t = .error (PyError.runtimeError "Error retrieving Cloud Foundry spaces:"))
    ∧ get_cf_spaces "...\nname\nspace-a\nspace-b\n" = .ok ["space-a", "space-b"] := by
  refine ⟨?_, ?_, rfl⟩
  · intro pre post h
    have hd : (pre ++ "name\n" ++ post).data = pre.data ++ (nameNl ++ post.data) := by
      rw [strData_append, strData_append, List.append_assoc]
      rfl
    simp only [get_cf_spaces, hd]
    rw [containsSub_nameNl_append pre.data post.data h]
    rw [afterFirst_nameNl_append pre.data post.data h]
    simp [pySplitlines]
  · intro t h
    simp [get_cf_spaces, h]

/-- Witness for C7 at a concrete prefix and suffix. -/
theorem get_cf_spaces_spec_witness :
    containsSub nameNl ("spaces:\n").data = false
    ∧ get_cf_spaces ("spaces:\n" ++ "name\n" ++ "alpha\nbeta") = .ok (pySplitlines "alpha\nbeta") :=
  ⟨rfl, get_cf_spaces_spec.1 "spaces:\n" "alpha\nbeta" rfl⟩

/-- C8: calculate_footprint is instances divided by 65 times 400, over the
exact rational model of the source's real arithmetic, with the claimed
values at 0, 65 and 130. -/
theorem calculate_footprint_values :
    calculate_footprint 0 = 0
    ∧ calculate_footprint 65 = 400
    ∧ calculate_footprint 130 = 800
    ∧ ∀ n : ℚ, calculate_footprint n = (n / 65) * 400 := by
  refine ⟨?_, ?_, ?_, fun n => rfl⟩ <;>
    norm_num [calculate_footprint, INSTANCES_PER_SERVER, WATT_PER_SERVER]

/-- C9: calculate_footprint is additive and homogeneous (hence linear) and
monotone on non-negative instance counts. -/
theorem calculate_footprint_linear_monotone :
    (∀ a b : ℚ, 0 ≤ a → 0 ≤ b →
       calculate_footprint (a + b) = calculate_footprint a + calculate_footprint b)
    ∧ (∀ k n : ℚ, 0 ≤ k → 0 ≤ n →
       calculate_footprint (k * n) = k * calculate_footprint n)
    ∧ (∀ n m : ℚ, 0 ≤ n → n ≤ m →
       calculate_footprint n ≤ calculate_footprint m) := by
  refine ⟨fun a b _ _ => by unfold calculate_footprint; ring,
          fun k n _ _ => by unfold calculate_footprint; ring,
          fun n m _ h => ?_⟩
  unfold calculate_footprint INSTANCES_PER_SERVER WATT_PER_SERVER
  have h400 : (0 : ℚ) ≤ 400 / 65 := by norm_num
  calc n / 65 * 400 = n * (400 / 65) := by ring
    _ ≤ m * (400 / 65) := mul_le_mul_of_nonneg_right h h400
    _ = m / 65 * 400 := by ring

/-- Witness for C9 at concrete non-negative inputs. -/
theorem calculate_footprint_linear_monotone_witness :
    (0 : ℚ) ≤ 1 ∧ (0 : ℚ) ≤ 2
    ∧ calculate_footprint (1 + 2) = calculate_footprint 1 + calculate_footprint 2 :=
  ⟨by norm_num, by norm_num,
   calculate_footprint_linear_monotone.1 1 2 (by norm_num) (by norm_num)⟩

/-- C6 counterexample: a configuration whose carbon flag is set to the
empty string (set but falsy) with the year flag also set does not take the
carbon branch; the printed line is the kWh line, against the claim that a
set carbon flag always takes priority. -/
theorem carbon_empty_not_priority_cex :
    (Args.mk true (some "") none false).carbon = some ""
    ∧ (Args.mk true (some "") none false).year = true
    ∧ print_footprint (Args.mk true (some "") none false) "dev" 0 = .ok "Space dev: 0 kWh per year" := by
  refine ⟨rfl, rfl, ?_⟩
  have h0 : calculate_footprint_per_year ((0 : Nat) : ℚ) = 0 := by
    norm_num [calculate_footprint_per_year, calculate_footprint]
  simp only [print_footprint, pyTruthy, h0, pyRound_zero]
  rfl

/-- C6 (amended): print_footprint selects the carbon metric when the carbon
argument is truthy (set to a non-empty string) and parses as an integer,
else the year metric when the year flag is set, else Watts; the value is
rounded Python-style and the label is TOTAL with a colon exactly for the
TOTAL name and Space name with a colon otherwise. -/
theorem print_footprint_metric_selection :
    ∀ (args : Args) (name : String) (n : Nat),
      (∀ (s : String) (c : Int), args.carbon = some s → s ≠ "" → pyInt s = some c →
        print_footprint args name n =
          .ok ((if name = "TOTAL" then "TOTAL:" else "Space " ++ name ++ ":") ++ " " ++
               toString (pyRound (calculate_carbon_footprint_per_year (n : ℚ) c)) ++ " kg CO2e per year"))
      ∧ (pyTruthy args.carbon = false → args.year = true →
        print_footprint args name n =
          .ok ((if name = "TOTAL" then "TOTAL:" else "Space " ++ name ++ ":") ++ " " ++
               toString (pyRound (calculate_footprint_per_year (n : ℚ))) ++ " kWh per year"))
      ∧ (pyTruthy args.carbon = false → args.year = false →
        print_footprint args name n =
          .ok ((if name = "TOTAL" then "TOTAL:" else "Space " ++ name ++ ":") ++ " " ++
               toString (pyRound (calculate_footprint (n : ℚ))) ++ " Watt")) := by
  intro args name n
  refine ⟨?_, ?_, ?_⟩
  · intro s c hs hne hc
    have hts : pyTruthy (some s) = true := by simp [pyTruthy, hne]
    by_cases hname : name = "TOTAL" <;>
      simp [print_footprint, TOTAL, hs, hts, hc, hname]
  · intro hf hy
    by_cases hname : name = "TOTAL" <;>
      simp [print_footprint, TOTAL, hf, hy, hname]
  · intro hf hy
    by_cases hname : name = "TOTAL" <;>
      simp [print_footprint, TOTAL, hf, hy, hname]

/-- Witness for the amended C6 theorem: a truthy numeric carbon argument
takes the carbon branch. -/
theorem print_footprint_metric_selection_witness :
    (Args.mk false (some "600") none false).carbon = some "600"
    ∧ pyInt "600" = some 600
    ∧ print_footprint (Args.mk false (some "600") none false) "TOTAL" 0 =
        .ok ((if "TOTAL" = "TOTAL" then "TOTAL:" else "Space " ++ "TOTAL" ++ ":") ++ " " ++
             toString (pyRound (calculate_carbon_footprint_per_year ((0 : Nat) : ℚ) 600)) ++ " kg CO2e per year") :=
  ⟨rfl, rfl,
   (print_footprint_metric_selection (Args.mk false (some "600") none false) "TOTAL" 0).1
     "600" 600 rfl (by decide) rfl⟩

/-- C1: in all-spaces mode, a successful run's trace of report calls is the
per-space reports followed by one TOTAL report whose instance count is the
sum of the per-space counts returned by get_active_instances, for exactly
the listed spaces in order. -/
theorem main_total_eq_sum_of_space_counts :
    ∀ (args : Args) (env : Env) (trace : List (String × Nat)),
      args.space = none → main args env = .ok trace →
      ∃ reports : List (String × Nat),
        trace = reports ++ [(TOTAL, (reports.map Prod.snd).sum)]
        ∧ (∃ spaces : List String, get_cf_spaces env.spaces_output = .ok spaces
             ∧ reports.map Prod.fst = spaces)
        ∧ ∀ p ∈ reports, get_active_instances (env.apps_output p.1) = .ok p.2 := by
  intro args env trace hspace h
  cases hsp : get_cf_spaces env.spaces_output with
  | error e => simp [main, hspace, hsp] at h
  | ok spaces =>
    cases hps : processSpaces env 0 spaces with
    | error e => simp [main, hspace, hsp, hps] at h
    | ok pr =>
      obtain ⟨reports, total⟩ := pr
      simp only [main, hspace, hsp, hps, Except.ok.injEq] at h
      subst h
      obtain ⟨hsum, hfst, hmem⟩ := processSpaces_spec env spaces 0 reports total hps
      refine ⟨reports, ?_, ⟨spaces, rfl, hfst⟩, hmem⟩
      rw [hsum]
      simp

/-- Witness for C1 on a concrete two-space environment. -/
theorem main_total_eq_sum_of_space_counts_witness :
    main (Args.mk false none none false)
        (Env.mk "x\nname\nalpha\nbeta" (fun _ => "API endpoint: ok")
          (fun sp => if sp = "alpha" then "h\n\nname state\napp1   started web:2/3 x" else "No apps found")
          (fun _ => ""))
      = .ok [("alpha", 2), ("beta", 0), ("TOTAL", 2)]
    ∧ ∃ reports : List (String × Nat),
        [("alpha", 2), ("beta", 0), ("TOTAL", 2)] = reports ++ [(TOTAL, (reports.map Prod.snd).sum)]
        ∧ (∃ spaces : List String,
             get_cf_spaces (Env.mk "x\nname\nalpha\nbeta" (fun _ => "API endpoint: ok")
               (fun sp => if sp = "alpha" then "h\n\nname state\napp1   started web:2/3 x" else "No apps found")
               (fun _ => "")).spaces_output = .ok spaces
             ∧ reports.map Prod.fst = spaces)
        ∧ ∀ p ∈ reports,
            get_active_instances ((Env.mk "x\nname\nalpha\nbeta" (fun _ => "API endpoint: ok")
              (fun sp => if sp = "alpha" then "h\n\nname state\napp1   started web:2/3 x" else "No apps found")
              (fun _ => "")).apps_output p.1) = .ok p.2 :=
  ⟨rfl, main_total_eq_sum_of_space_counts (Args.mk false none none false) _ _ rfl rfl⟩

end CfFootprint
